import Mathlib

/-!
Verification of the httpbinder request-binding library.

The development shallowly embeds the Go sources: the value-coercion engine
`bind`, the per-stage field extractors (`bindQuery`, `bindHeader`,
`bindParam`), the body-decoder registry loop, and the configurable
`Binder.BindRequest` pipeline.  Go machine integers are modelled as `Int`/`Nat`
with explicit truncation modulo `2 ^ w`; Go run-time panics are modelled as an
explicit `panic` outcome; fallible operations return `Except`/explicit error
outcomes.  Standard-library collaborators (`strconv`, `encoding/base64`,
`net/textproto`, `mime`) are modelled at the fidelity the code uses them.
-/

namespace Httpbinder

/-- Shapes of destination types supported by the reflection-driven coercer.
Widths follow the Go kinds: `tyInt 64` stands for both `int` and `int64` on a
64-bit platform, `tySlice (tyUInt 8)` is exactly Go's unnamed `[]byte`.
`tyHexInt64` models the test suite's custom `encoding.TextUnmarshaler`
implementation `HexInt64` (pointer receiver, hex-parsing `UnmarshalText`);
`tyStruct` stands for the reflect kinds the coercer does not support. -/
inductive GoType where
  | tyString : GoType
  | tyInt : Nat → GoType
  | tyUInt : Nat → GoType
  | tyBool : GoType
  | tyFloat : Nat → GoType
  | tyHexInt64 : GoType
  | tyPtr : GoType → GoType
  | tySlice : GoType → GoType
  | tyStruct : GoType
deriving DecidableEq

/-- Runtime values held in destination fields.  `vNil` is the nil pointer and
also the nil (zero-value) slice, distinct from the non-nil empty slice
`vSlice []`.  Float values keep the raw token that parsed (no claim inspects
float arithmetic). -/
inductive GoValue where
  | vString : String → GoValue
  | vInt : Nat → Int → GoValue
  | vUInt : Nat → Nat → GoValue
  | vBool : Bool → GoValue
  | vFloat : Nat → String → GoValue
  | vHex : Int → GoValue
  | vNil : GoValue
  | vPtr : GoValue → GoValue
  | vSlice : List GoValue → GoValue
  | vOpaque : GoValue

/-- Go zero value of each modelled type (what `reflect.New` allocates). -/
def zeroValue : GoType → GoValue
  | .tyString => .vString ""
  | .tyInt w => .vInt w 0
  | .tyUInt w => .vUInt w 0
  | .tyBool => .vBool false
  | .tyFloat w => .vFloat w "0"
  | .tyHexInt64 => .vHex 0
  | .tyPtr _ => .vNil
  | .tySlice _ => .vNil
  | .tyStruct => .vOpaque

/-- Truncation of a 64-bit parsed integer to a `w`-bit signed field, exactly
what `reflect.Value.SetInt` does via the Go conversion `intW(x)`. -/
def toSigned (w : Nat) (x : Int) : Int :=
  (x + 2 ^ (w - 1)) % (2 ^ w : Nat) - 2 ^ (w - 1)

/-- Decimal digit accumulator used by the `strconv` models. -/
def parseDigitsAux : List Char → Nat → Option Nat
  | [], acc => some acc
  | c :: rest, acc =>
      if c.isDigit then parseDigitsAux rest (acc * 10 + (c.toNat - 48)) else none

/-- All-decimal-digits parse; `none` on the empty list or any non-digit. -/
def parseDigits? (cs : List Char) : Option Nat :=
  match cs with
  | [] => none
  | _ => parseDigitsAux cs 0

/-- Modelled collaborator `strconv.ParseUint(s, 10, 64)`: no sign prefix,
decimal digits only, range `[0, 2^64)`. -/
def parseUintDec64 (s : String) : Except String Nat :=
  match parseDigits? s.data with
  | none => .error ("parsing " ++ s ++ ": invalid syntax")
  | some n =>
      if n < 2 ^ 64 then .ok n
      else .error ("parsing " ++ s ++ ": value out of range")

/-- Modelled collaborator `strconv.ParseInt(s, 10, 64)`: optional sign,
decimal digits, range `[-2^63, 2^63)`. -/
def parseIntDec64 (s : String) : Except String Int :=
  match s.data with
  | [] => .error ("parsing " ++ s ++ ": invalid syntax")
  | c :: rest =>
      let signed : Bool × List Char :=
        if c = Char.ofNat 45 then (true, rest)
        else if c = Char.ofNat 43 then (false, rest)
        else (false, c :: rest)
      match parseDigits? signed.2 with
      | none => .error ("parsing " ++ s ++ ": invalid syntax")
      | some n =>
          if signed.1 then
            if n ≤ 2 ^ 63 then .ok (-(n : Int))
            else .error ("parsing " ++ s ++ ": value out of range")
          else
            if n < 2 ^ 63 then .ok (n : Int)
            else .error ("parsing " ++ s ++ ": value out of range")

/-- Hex digit value, for the `HexInt64.UnmarshalText` model. -/
def hexDigitVal? (c : Char) : Option Nat :=
  let n := c.toNat
  if 48 ≤ n ∧ n ≤ 57 then some (n - 48)
  else if 97 ≤ n ∧ n ≤ 102 then some (n - 87)
  else if 65 ≤ n ∧ n ≤ 70 then some (n - 55)
  else none

/-- Hex digit accumulator. -/
def parseHexAux : List Char → Nat → Option Nat
  | [], acc => some acc
  | c :: rest, acc =>
      match hexDigitVal? c with
      | some d => parseHexAux rest (acc * 16 + d)
      | none => none

/-- Modelled collaborator `strconv.ParseInt(s, 16, 64)` as used by
`HexInt64.UnmarshalText` in the test suite. -/
def parseIntHex64 (s : String) : Except String Int :=
  match s.data with
  | [] => .error ("parsing " ++ s ++ ": invalid syntax")
  | c :: rest =>
      let signed : Bool × List Char :=
        if c = Char.ofNat 45 then (true, rest)
        else if c = Char.ofNat 43 then (false, rest)
        else (false, c :: rest)
      match signed.2 with
      | [] => .error ("parsing " ++ s ++ ": invalid syntax")
      | ds =>
          match parseHexAux ds 0 with
          | none => .error ("parsing " ++ s ++ ": invalid syntax")
          | some n =>
              if signed.1 then
                if n ≤ 2 ^ 63 then .ok (-(n : Int))
                else .error ("parsing " ++ s ++ ": value out of range")
              else
                if n < 2 ^ 63 then .ok (n : Int)
                else .error ("parsing " ++ s ++ ": value out of range")

/-- The custom text-decode hook of the test type `HexInt64`. -/
def hexInt64UnmarshalText (s : String) : Except String Int :=
  parseIntHex64 s

/-- Modelled collaborator `strconv.ParseBool`: the canonical token forms. -/
def parseGoBool (s : String) : Except String Bool :=
  if s = "1" ∨ s = "t" ∨ s = "T" ∨ s = "TRUE" ∨ s = "true" ∨ s = "True" then .ok true
  else if s = "0" ∨ s = "f" ∨ s = "F" ∨ s = "FALSE" ∨ s = "false" ∨ s = "False" then .ok false
  else .error ("parsing " ++ s ++ ": invalid syntax")

/-- Strip one optional leading sign character. -/
def stripSign : List Char → List Char
  | c :: rest =>
      if c = Char.ofNat 43 ∨ c = Char.ofNat 45 then rest else c :: rest
  | [] => []

/-- Exponent-digit run of a float literal: optional sign then digits. -/
def expDigits (r : List Char) : Bool :=
  let r2 := stripSign r
  decide (r2 ≠ []) && r2.all (·.isDigit)

/-- Optional exponent part of a float literal. -/
def expOk : List Char → Bool
  | [] => true
  | c :: r =>
      if c = Char.ofNat 101 ∨ c = Char.ofNat 69 then expDigits r else false

/-- Unsigned decimal mantissa with optional fraction, then optional
exponent. -/
def floatBodyOk (cs : List Char) : Bool :=
  let ip := cs.takeWhile (·.isDigit)
  let rest := cs.dropWhile (·.isDigit)
  match rest with
  | [] => decide (ip ≠ [])
  | c :: frac =>
      if c = Char.ofNat 46 then
        let fp := frac.takeWhile (·.isDigit)
        let rest2 := frac.dropWhile (·.isDigit)
        (decide (ip ≠ []) || decide (fp ≠ [])) && expOk rest2
      else
        decide (ip ≠ []) && expOk rest

/-- Modelled collaborator `strconv.ParseFloat(s, 64)` at the fidelity the
claims need: syntactic acceptance of decimal floats and the special
inf/infinity/nan forms.  The accepted token itself is kept as the value, since
no claim inspects float arithmetic. -/
def parseGoFloat (s : String) : Except String String :=
  let b := stripSign s.data
  let lower := (b.map Char.toLower).asString
  if lower = "inf" ∨ lower = "infinity" ∨ lower = "nan" then .ok s
  else if floatBodyOk b then .ok s
  else .error ("parsing " ++ s ++ ": invalid syntax")

/-- Base64 value of one standard-alphabet character. -/
def b64Val? (c : Char) : Option Nat :=
  let n := c.toNat
  if 65 ≤ n ∧ n ≤ 90 then some (n - 65)
  else if 97 ≤ n ∧ n ≤ 122 then some (n - 71)
  else if 48 ≤ n ∧ n ≤ 57 then some (n + 4)
  else if n = 43 then some 62
  else if n = 47 then some 63
  else none

/-- Block decoder for standard padded base64: groups of four characters, with
`=` padding allowed only in the final group. -/
def base64DecodeBlocks : List Char → Except String (List Nat)
  | [] => .ok []
  | a :: b :: c :: d :: rest =>
      match b64Val? a, b64Val? b with
      | some va, some vb =>
          if c = Char.ofNat 61 then
            if d = Char.ofNat 61 ∧ rest = [] then .ok [va * 4 + vb / 16]
            else .error "illegal base64 data"
          else
            match b64Val? c with
            | some vc =>
                if d = Char.ofNat 61 then
                  if rest = [] then .ok [va * 4 + vb / 16, vb % 16 * 16 + vc / 4]
                  else .error "illegal base64 data"
                else
                  match b64Val? d with
                  | some vd =>
                      match base64DecodeBlocks rest with
                      | .ok tail =>
                          .ok ([va * 4 + vb / 16, vb % 16 * 16 + vc / 4,
                                vc % 4 * 64 + vd] ++ tail)
                      | .error e => .error e
                  | none => .error "illegal base64 data"
            | none => .error "illegal base64 data"
      | _, _ => .error "illegal base64 data"
  | _ => .error "illegal base64 data"

/-- Modelled collaborator `base64.StdEncoding.DecodeString`: carriage returns
and newlines are ignored, everything else must form padded four-character
blocks. -/
def base64Decode (s : String) : Except String (List Nat) :=
  base64DecodeBlocks
    (s.data.filter (fun c => ¬(c = Char.ofNat 13 ∨ c = Char.ofNat 10)))

/-- Which modelled types implement `encoding.TextUnmarshaler`.  `HexInt64`
declares `UnmarshalText` on the pointer receiver, so exactly the pointer type
`*HexInt64` implements the interface (mirroring `reflect.AssignableTo` on
`textUnmarshalerType`). -/
def implementsTextUnmarshaler : GoType → Bool
  | .tyPtr .tyHexInt64 => true
  | _ => false

/-- Outcome of one coercion call on a single destination slot.  `ok none`
means the call succeeded leaving the slot untouched, `ok (some v)` means the
slot was overwritten with `v` (the Go code performs at most one
`reflect.Value.Set` per call, at the end of the chosen branch).  `panic`
models a Go run-time panic. -/
inductive BindRes where
  | ok : Option GoValue → BindRes
  | err : String → BindRes
  | panic : String → BindRes

/-- Accumulated results of the per-element coercions of the slice branch. -/
inductive ElemsRes where
  | oks : List GoValue → ElemsRes
  | err : String → ElemsRes
  | panic : String → ElemsRes

/-- Sequentially collect per-element results, aborting at the first error or
panic, and materialising untouched elements at the given zero value (each
element slot is freshly allocated by `reflect.New`). -/
def collectElems (zero : GoValue) : List BindRes → ElemsRes
  | [] => .oks []
  | .ok w :: rest =>
      match collectElems zero rest with
      | .oks l => .oks (w.getD zero :: l)
      | .err e => .err e
      | .panic e => .panic e
  | .err e :: _ => .err e
  | .panic e :: _ => .panic e

/-- The value-coercion engine `bind` of `part_004`.  The Go code dispatches
by a chain of type tests in source order — `outType` implements
`TextUnmarshaler` (true exactly for `*HexInt64`, whose non-pointer error
sub-branch is therefore unreachable in this universe), then `*outType`
implements it (true exactly for `HexInt64`), then `outType == []byte`, then
the kind switch — and each test is decided purely by the type's shape, so the
same dispatch is encoded here as ordered patterns.  Note the `[]byte` branch
reads `values[0]` without a length guard, so an empty value set is a run-time
panic there.  The generic pointer and slice arms come last and thus apply
only when the earlier special cases do not, exactly as in the source. -/
def bind : GoType → List String → BindRes
  | .tyPtr .tyHexInt64, values =>
      (match values with
       | [] => .ok none
       | v :: _ =>
           if v = "" then .ok none
           else
             match hexInt64UnmarshalText v with
             | .ok n => .ok (some (.vPtr (.vHex n)))
             | .error e => .err e)
  | .tyHexInt64, values =>
      (match values with
       | [] => .ok none
       | v :: _ =>
           if v = "" then .ok none
           else
             match hexInt64UnmarshalText v with
             | .ok n => .ok (some (.vHex n))
             | .error e => .err e)
  | .tySlice (.tyUInt 8), values =>
      (match values with
       | [] => .panic "runtime error: index out of range [0] with length 0"
       | v :: _ =>
           match base64Decode v with
           | .ok bs => .ok (some (.vSlice (bs.map (fun b => .vUInt 8 b))))
           | .error e => .err e)
  | .tyString, values =>
      (match values with
       | [] => .ok none
       | v :: _ => if v = "" then .ok none else .ok (some (.vString v)))
  | .tyInt w, values =>
      (match values with
       | [] => .ok none
       | v :: _ =>
           if v = "" then .ok none
           else
             match parseIntDec64 v with
             | .ok n => .ok (some (.vInt w (toSigned w n)))
             | .error e => .err e)
  | .tyUInt w, values =>
      (match values with
       | [] => .ok none
       | v :: _ =>
           if v = "" then .ok none
           else
             match parseUintDec64 v with
             | .ok n => .ok (some (.vUInt w (n % 2 ^ w)))
             | .error e => .err e)
  | .tyBool, values =>
      (match values with
       | [] => .ok none
       | v :: _ =>
           if v = "" then .ok none
           else
             match parseGoBool v with
             | .ok b => .ok (some (.vBool b))
             | .error e => .err e)
  | .tyFloat w, values =>
      (match values with
       | [] => .ok none
       | v :: _ =>
           if v = "" then .ok none
           else
             match parseGoFloat v with
             | .ok tok => .ok (some (.vFloat w tok))
             | .error e => .err e)
  | .tyPtr inner, values =>
      (match values with
       | [] => .ok none
       | v :: _ =>
           if v = "" then .ok none
           else
             match bind inner values with
             | .ok w => .ok (some (.vPtr (w.getD (zeroValue inner))))
             | .err e => .err e
             | .panic e => .panic e)
  | .tySlice elem, values =>
      (match collectElems (zeroValue elem) (values.map (fun v => bind elem [v])) with
       | .oks l => .ok (some (.vSlice l))
       | .err e => .err e
       | .panic e => .panic e)
  | .tyStruct, _ => .err "invalid kind"

example : bind .tyBool ["true"] = .ok (some (.vBool true)) := rfl
example : bind .tyString [] = .ok none := rfl
example : bind (.tyInt 8) ["300"] = .ok (some (.vInt 8 44)) := rfl
example : bind (.tySlice (.tyUInt 8)) ["YWJj"] =
    .ok (some (.vSlice [.vUInt 8 97, .vUInt 8 98, .vUInt 8 99])) := rfl
example : bind (.tySlice (.tyUInt 8)) [] =
    .panic "runtime error: index out of range [0] with length 0" := rfl
example : bind (.tyPtr .tyHexInt64) ["aa"] = .ok (some (.vPtr (.vHex 170))) := rfl
example : bind .tyHexInt64 ["bb"] = .ok (some (.vHex 187)) := rfl
example : bind (.tySlice .tyString) [] = .ok (some (.vSlice [])) := rfl
example : bind (.tySlice .tyBool) ["true", "zz"] = .err "parsing zz: invalid syntax" := rfl

/-- Valid header-field bytes per `net/textproto` (the token characters). -/
def validHeaderFieldChar (c : Char) : Bool :=
  let n := c.toNat
  (48 ≤ n ∧ n ≤ 57) ∨ (65 ≤ n ∧ n ≤ 90) ∨ (97 ≤ n ∧ n ≤ 122) ∨
    n ∈ [33, 35, 36, 37, 38, 39, 42, 43, 45, 46, 94, 95, 96, 124, 126]

/-- Case-mapping pass of `textproto.CanonicalMIMEHeaderKey`: uppercase after a
hyphen or at the start, lowercase elsewhere. -/
def canonChars : List Char → Bool → List Char
  | [], _ => []
  | c :: rest, upper =>
      let c2 := if upper then c.toUpper else c.toLower
      c2 :: canonChars rest (c2 = Char.ofNat 45)

/-- Modelled collaborator `textproto.CanonicalMIMEHeaderKey`: keys containing
invalid header-field bytes are returned unchanged, otherwise the canonical
capitalisation is produced. -/
def canonicalMIMEHeaderKey (s : String) : String :=
  if s.data.all validHeaderFieldChar then (canonChars s.data true).asString else s

example : canonicalMIMEHeaderKey "content-type" = "Content-Type" := rfl

/-- Modelled collaborator `mime.ParseMediaType` at the fidelity the code uses
it: the bare media type before any parameters, trimmed and lowercased; an
empty media type is an error. -/
def parseMediaType (s : String) : Except String String :=
  let upToSemi := s.data.takeWhile (fun c => ¬ c = Char.ofNat 59)
  let noLead := upToSemi.dropWhile (fun c => c = Char.ofNat 32)
  let noTrail := (noLead.reverse.dropWhile (fun c => c = Char.ofNat 32)).reverse
  let base := (noTrail.map Char.toLower).asString
  if base = "" then .error "mime: no media type" else .ok base

example : parseMediaType "application/json; charset=utf-8" = .ok "application/json" := rfl

/-- One field of the destination structure: its three per-stage tags, its
declared type, and its current contents. -/
structure Field where
  queryTag : String
  headerTag : String
  paramTag : String
  type : GoType
  value : GoValue

/-- The request data the binder consumes from the transport collaborator:
method, parsed query values, canonical-keyed header map, and whether the body
stream interface is nil (server requests always carry a non-nil body, but the
binder accepts arbitrary requests). -/
structure Request where
  method : String
  queryParams : List (String × List String)
  headers : List (String × List String)
  bodyIsNil : Bool

/-- Go map indexing over a multi-valued string map: a missing key yields the
nil (empty) slice. -/
def multiLookup (m : List (String × List String)) (k : String) : List String :=
  match m.find? (fun p => p.1 = k) with
  | some p => p.2
  | none => []

/-- Modelled `http.Header.Get`: canonicalise the key, first value or "". -/
def headerGet (req : Request) (k : String) : String :=
  (multiLookup req.headers (canonicalMIMEHeaderKey k)).headD ""

/-- Outcome of a stage or of the whole pipeline, carrying the destination
contents reached so far (partial mutation on failure is part of the
contract). -/
inductive Outcome (α : Type) where
  | ok : α → Outcome α
  | err : String → α → Outcome α
  | panic : String → α → Outcome α

/-- The shared field-walking loop of `bindQuery` / `bindHeader` / `bindParam`:
for each field in declaration order whose stage tag is non-empty, fetch the
raw values for that tag and coerce; stop at the first error, leaving that
field and all later fields untouched. -/
def bindFieldsWith (tagOf : Field → String) (fetch : String → List String) :
    List Field → Outcome (List Field)
  | [] => .ok []
  | f :: fs =>
      if tagOf f = "" then
        match bindFieldsWith tagOf fetch fs with
        | .ok rest => .ok (f :: rest)
        | .err e rest => .err e (f :: rest)
        | .panic e rest => .panic e (f :: rest)
      else
        match bind f.type (fetch (tagOf f)) with
        | .ok w =>
            match bindFieldsWith tagOf fetch fs with
            | .ok rest => .ok ({ f with value := w.getD f.value } :: rest)
            | .err e rest => .err e ({ f with value := w.getD f.value } :: rest)
            | .panic e rest => .panic e ({ f with value := w.getD f.value } :: rest)
        | .err e => .err e (f :: fs)
        | .panic e => .panic e (f :: fs)

/-- Query extraction stage (`bindQuery` of `part_004`): raw values come from
the parsed query string under the exact tag. -/
def bindQuery (req : Request) (fs : List Field) : Outcome (List Field) :=
  bindFieldsWith (fun f => f.queryTag) (fun tag => multiLookup req.queryParams tag) fs

/-- Header extraction stage (`bindHeader` of `part_004`): the tag is
canonicalised before the direct header-map lookup. -/
def bindHeader (req : Request) (fs : List Field) : Outcome (List Field) :=
  bindFieldsWith (fun f => f.headerTag)
    (fun tag => multiLookup req.headers (canonicalMIMEHeaderKey tag)) fs

/-- Route-parameter extraction stage (`bindParam` of `part_004`): the
caller-supplied extractor produces one string, wrapped as a one-element value
set. -/
def bindParam (req : Request) (pe : Request → String → String) (fs : List Field) :
    Outcome (List Field) :=
  bindFieldsWith (fun f => f.paramTag) (fun tag => [pe req tag]) fs

/-- A registered body decoder: content-type match predicate plus a decode
function consuming the request body into the whole destination (the decode
itself is an external collaborator such as `encoding/json`). -/
structure BodyDecoder where
  Match : Request → Bool
  DecodeBody : Request → List Field → Except String (List Field)

/-- The decoder loop inside `Binder.BindRequest`: first matching decoder
decodes and iteration stops (`break` on success, immediate return on failure);
no match is a silent no-op. -/
def runBodyDecoders : List BodyDecoder → Request → List Field → Outcome (List Field)
  | [], _, fs => .ok fs
  | d :: ds, req, fs =>
      if d.Match req then
        match d.DecodeBody req fs with
        | .ok fs2 => .ok fs2
        | .error e => .err e fs
      else runBodyDecoders ds req fs

/-- Modelled `JSONBodyDecoder.Match` of `part_000`: the request's
content-type header parses to exactly the `application/json` media type. -/
def jsonMatch (req : Request) : Bool :=
  match parseMediaType (headerGet req "content-type") with
  | .ok mt => mt = "application/json"
  | .error _ => false

/-- The configurable binder's options record. -/
structure BindOptions where
  paramExtractor : Option (Request → String → String)
  validator : Option (List Field → Option String)
  bodyDecoders : List BodyDecoder

/-- The configurable binder. -/
structure Binder where
  options : BindOptions

/-- One functional option (Go's `Option func(*bindOptions)`). -/
def BinderOption : Type := BindOptions → BindOptions

/-- Option installing a route-parameter extractor. -/
def WithParamExtractor (pe : Request → String → String) : BinderOption :=
  fun o => { o with paramExtractor := some pe }

/-- Option installing a post-bind validator. -/
def WithValidator (v : List Field → Option String) : BinderOption :=
  fun o => { o with validator := some v }

/-- Option appending one body decoder to the registry. -/
def WithBodyDecoder (d : BodyDecoder) : BinderOption :=
  fun o => { o with bodyDecoders := o.bodyDecoders ++ [d] }

/-- Binder construction from functional options. -/
def NewBinder (opts : List BinderOption) : Binder :=
  ⟨opts.foldl (fun o f => f o) ⟨none, none, []⟩⟩

/-- The stage sequencing of `Binder.BindRequest`, without the deferred
body-close: body decoding when the method is not GET, then query, then header,
then route parameters when configured, then validation when configured, each
stopping the pipeline at its first error. -/
def bindRequestCore (opts : BindOptions) (req : Request) (fs : List Field) :
    Outcome (List Field) :=
  match (if req.method ≠ "GET" then runBodyDecoders opts.bodyDecoders req fs else .ok fs) with
  | .err e a => .err e a
  | .panic e a => .panic e a
  | .ok fs1 =>
      match bindQuery req fs1 with
      | .err e a => .err e a
      | .panic e a => .panic e a
      | .ok fs2 =>
          match bindHeader req fs2 with
          | .err e a => .err e a
          | .panic e a => .panic e a
          | .ok fs3 =>
              match (match opts.paramExtractor with
                     | some pe => bindParam req pe fs3
                     | none => .ok fs3) with
              | .err e a => .err e a
              | .panic e a => .panic e a
              | .ok fs4 =>
                  match opts.validator with
                  | some valf =>
                      match valf fs4 with
                      | some e => .err e fs4
                      | none => .ok fs4
                  | none => .ok fs4

/-- The configurable binder's entry point.  For a non-GET request the Go code
first executes `defer req.Body.Close()`; evaluating the method value on a nil
body interface panics immediately, before any decoder or stage runs. -/
def Binder.BindRequest (binder : Binder) (req : Request) (fs : List Field) :
    Outcome (List Field) :=
  if req.method ≠ "GET" ∧ req.bodyIsNil then
    .panic "runtime error: invalid memory address or nil pointer dereference" fs
  else bindRequestCore binder.options req fs

/-- One pipeline stage as a function of the request and destination. -/
def Stage : Type := Request → List Field → Outcome (List Field)

/-- Run a list of stages in order, stopping at the first error or panic. -/
def runStages : List Stage → Request → List Field → Outcome (List Field)
  | [], _, fs => .ok fs
  | s :: ss, req, fs =>
      match s req fs with
      | .ok fs2 => runStages ss req fs2
      | .err e a => .err e a
      | .panic e a => .panic e a

/-- The body-handling step of the configurable pipeline as a stage. -/
def bodyStage (ds : List BodyDecoder) : Stage :=
  fun req fs => if req.method ≠ "GET" then runBodyDecoders ds req fs else .ok fs

/-- The validation hook as a stage. -/
def validateStage (valf : List Field → Option String) : Stage :=
  fun _ fs =>
    match valf fs with
    | some e => .err e fs
    | none => .ok fs

/-- The stage list the configurable binder executes, in the order the code
runs them: body, query, header, then the optional parameter and validation
stages. -/
def stagesOf (opts : BindOptions) : List Stage :=
  [bodyStage opts.bodyDecoders, fun req fs => bindQuery req fs,
   fun req fs => bindHeader req fs] ++
  (match opts.paramExtractor with
   | some pe => [fun req fs => bindParam req pe fs]
   | none => []) ++
  (match opts.validator with
   | some valf => [validateStage valf]
   | none => [])

/-- Pipeline in the order the specification words it (body, then header, then
query, then parameters, then validation); defined only to be compared with
the code's `bindRequestCore`. -/
def bindRequestSpecOrder (opts : BindOptions) (req : Request) (fs : List Field) :
    Outcome (List Field) :=
  runStages
    ([bodyStage opts.bodyDecoders, fun req fs => bindHeader req fs,
      fun req fs => bindQuery req fs] ++
     (match opts.paramExtractor with
      | some pe => [fun req fs => bindParam req pe fs]
      | none => []) ++
     (match opts.validator with
      | some valf => [validateStage valf]
      | none => []))
    req fs

/-- The five scalar shapes of the coercer's kind switch. -/
def isScalar : GoType → Bool
  | .tyString => true
  | .tyInt _ => true
  | .tyUInt _ => true
  | .tyBool => true
  | .tyFloat _ => true
  | _ => false

example :
    Binder.BindRequest ⟨⟨none, none, []⟩⟩
      ⟨"GET", [("q", ["a"]), ("int_val", ["1"]), ("bool_val", ["true"]),
               ("binary_val", ["YWJj"])], [], true⟩
      [⟨"q", "", "", .tyString, .vString ""⟩,
       ⟨"int_val", "", "", .tyInt 64, .vInt 64 0⟩,
       ⟨"bool_val", "", "", .tyBool, .vBool false⟩,
       ⟨"binary_val", "", "", .tySlice (.tyUInt 8), .vNil⟩] =
    .ok [⟨"q", "", "", .tyString, .vString "a"⟩,
         ⟨"int_val", "", "", .tyInt 64, .vInt 64 1⟩,
         ⟨"bool_val", "", "", .tyBool, .vBool true⟩,
         ⟨"binary_val", "", "", .tySlice (.tyUInt 8),
          .vSlice [.vUInt 8 97, .vUInt 8 98, .vUInt 8 99]⟩] := rfl

/-- C10: for every non-GET request with a nil body stream, `BindRequest`
panics (the deferred `req.Body.Close()` dereferences a nil interface) instead
of returning a result, whatever the configured options — in particular even
with no registered body decoder. -/
theorem bindRequest_nil_body_close_panics (b : Binder) (req : Request) (fs : List Field)
    (hm : req.method ≠ "GET") (hb : req.bodyIsNil = true) :
    b.BindRequest req fs =
      .panic "runtime error: invalid memory address or nil pointer dereference" fs := by
  unfold Binder.BindRequest
  rw [if_pos ⟨hm, hb⟩]

/-- C10 witness: a POST request with nil body against an option-free binder. -/
theorem bindRequest_nil_body_close_panics_witness :
    Binder.BindRequest ⟨⟨none, none, []⟩⟩ ⟨"POST", [], [], true⟩
        [⟨"q", "", "", .tyString, .vString ""⟩] =
      .panic "runtime error: invalid memory address or nil pointer dereference"
        [⟨"q", "", "", .tyString, .vString ""⟩] :=
  bindRequest_nil_body_close_panics ⟨⟨none, none, []⟩⟩ ⟨"POST", [], [], true⟩
    [⟨"q", "", "", .tyString, .vString ""⟩] (by decide) rfl

/-- C2: the code evaluated at the failing input.  The `[]byte` branch of
`bind` reads `values[0]` without a length guard, so a `[]byte`-typed field
whose query key is absent makes the whole bind call panic with an
index-out-of-range run-time error instead of succeeding with the field left
untouched. -/
theorem bind_byte_slice_absent_key_panics :
    bind (.tySlice (.tyUInt 8)) [] =
      .panic "runtime error: index out of range [0] with length 0"
    ∧ Binder.BindRequest ⟨⟨none, none, []⟩⟩ ⟨"GET", [("q", ["a"])], [], true⟩
        [⟨"binary_val", "", "", .tySlice (.tyUInt 8), .vNil⟩] =
      .panic "runtime error: index out of range [0] with length 0"
        [⟨"binary_val", "", "", .tySlice (.tyUInt 8), .vNil⟩] :=
  ⟨rfl, rfl⟩

/-- C9: a raw value that `strconv` parses as a 64-bit integer is stored into
a narrower integer field truncated modulo `2 ^ w` (`reflect.SetInt` /
`SetUint` perform the Go narrowing conversion), with success and no
range-overflow error. -/
theorem bind_int_narrowing (w : Nat) (s : String) (vs : List String) (n : Int) (u : Nat)
    (hs : s ≠ "") :
    (parseIntDec64 s = .ok n →
      bind (.tyInt w) (s :: vs) = .ok (some (.vInt w (toSigned w n))))
    ∧ (parseUintDec64 s = .ok u →
      bind (.tyUInt w) (s :: vs) = .ok (some (.vUInt w (u % 2 ^ w)))) := by
  constructor
  · intro hp
    simp [bind, implementsTextUnmarshaler, hs, hp]
  · intro hp
    simp [bind, implementsTextUnmarshaler, hs, hp]

/-- C9 witness: coercing "300" into an 8-bit signed field stores 44, and into
an 8-bit unsigned field stores 44 as well. -/
theorem bind_int_narrowing_witness :
    bind (.tyInt 8) ["300"] = .ok (some (.vInt 8 44))
    ∧ bind (.tyUInt 8) ["300"] = .ok (some (.vUInt 8 44)) := by
  have h := bind_int_narrowing 8 "300" [] 300 300 (by decide)
  constructor
  · have h1 := h.1 (by rfl)
    rw [h1]
    rfl
  · have h2 := h.2 (by rfl)
    rw [h2]
    rfl

/-- C5: every scalar field coerced from an empty value set, or from a value
set whose first element is the empty string, is left untouched with success;
the empty string is never interpreted as a zero value. -/
theorem bind_scalar_empty_noop (t : GoType) (values : List String)
    (ht : isScalar t = true) (hv : values = [] ∨ values.head? = some "") :
    bind t values = .ok none := by
  have h2 : values = [] ∨ ∃ vs, values = "" :: vs := by
    rcases hv with h | h
    · exact .inl h
    · rcases values with _ | ⟨v, vs⟩
      · exact .inl rfl
      · simp only [List.head?_cons, Option.some.injEq] at h
        exact .inr ⟨vs, by rw [h]⟩
  rcases h2 with h | ⟨vs, h⟩ <;> subst h <;>
    cases t <;> simp_all [bind, isScalar, implementsTextUnmarshaler]

/-- C5 witness: an empty first value leaves an integer field untouched. -/
theorem bind_scalar_empty_noop_witness :
    isScalar (.tyInt 64) = true ∧ bind (.tyInt 64) [""] = .ok none :=
  ⟨rfl, bind_scalar_empty_noop (.tyInt 64) [""] rfl (.inr rfl)⟩

/-- Helper: only the pointer to the custom type implements the interface, so
a pointer to anything else fails both unmarshaler dispatch checks. -/
theorem implementsTextUnmarshaler_ptr (e : GoType) (he : e ≠ .tyHexInt64) :
    implementsTextUnmarshaler (.tyPtr e) = false := by
  cases e <;> simp_all [implementsTextUnmarshaler]

/-- C3: with a present tag but zero raw values, a homogeneous-sequence field
(a slice other than the `[]byte` blob case) is set to the non-nil empty
slice, while scalar, optional and custom-decodable fields are left untouched;
the stage really writes the empty slice into the field. -/
theorem bind_empty_values_by_shape (e : GoType) (he : e ≠ .tyUInt 8) :
    bind (.tySlice e) [] = .ok (some (.vSlice []))
    ∧ (∀ t, isScalar t = true → bind t [] = .ok none)
    ∧ (∀ t, bind (.tyPtr t) [] = .ok none)
    ∧ bind .tyHexInt64 [] = .ok none
    ∧ (∀ f : Field, f.type = .tySlice e → ¬ f.queryTag = "" →
        bindQuery ⟨"GET", [(f.queryTag, [])], [], true⟩ [f] =
          .ok [{ f with value := .vSlice [] }])
    ∧ (∀ f : Field, isScalar f.type = true →
        bindQuery ⟨"GET", [], [], true⟩ [f] = .ok [f]) := by
  have hslice : bind (.tySlice e) [] = .ok (some (.vSlice [])) := by
    simp [bind, implementsTextUnmarshaler, he, collectElems]
  refine ⟨hslice, ?_, ?_, rfl, ?_, ?_⟩
  · intro t ht
    cases t <;> simp_all [bind, isScalar, implementsTextUnmarshaler]
  · intro t
    cases t <;> simp [bind, implementsTextUnmarshaler]
  · intro f hf hq
    unfold bindQuery bindFieldsWith
    rw [if_neg hq]
    have hl : multiLookup [(f.queryTag, [])] f.queryTag = [] := by
      simp [multiLookup]
    simp only [hl, hf, hslice]
    rfl
  · intro f hf
    unfold bindQuery bindFieldsWith
    by_cases hq : f.queryTag = ""
    · simp [hq, bindFieldsWith]
    · have hml : multiLookup ([] : List (String × List String)) f.queryTag = [] := rfl
      have hb : bind f.type [] = .ok none := by
        cases ht : f.type <;> simp_all [bind, isScalar, implementsTextUnmarshaler]
      simp [hq, hml, hb, bindFieldsWith]

/-- C3 witness: a string-slice field with a present key and no values ends up
holding the explicit empty slice, and a scalar field stays untouched. -/
theorem bind_empty_values_by_shape_witness :
    bind (.tySlice .tyString) [] = .ok (some (.vSlice []))
    ∧ bindQuery ⟨"GET", [("tags", [])], [], true⟩
        [⟨"tags", "", "", .tySlice .tyString, .vNil⟩] =
      .ok [⟨"tags", "", "", .tySlice .tyString, .vSlice []⟩]
    ∧ bindQuery ⟨"GET", [], [], true⟩ [⟨"q", "", "", .tyString, .vString ""⟩] =
      .ok [⟨"q", "", "", .tyString, .vString ""⟩] := by
  have h := bind_empty_values_by_shape .tyString (by decide)
  refine ⟨h.1, ?_, ?_⟩
  · exact h.2.2.2.2.1 ⟨"tags", "", "", .tySlice .tyString, .vNil⟩ rfl (by decide)
  · exact h.2.2.2.2.2 ⟨"q", "", "", .tyString, .vString ""⟩ rfl

/-- C6: an optional (pointer) field is left untouched (nil stays nil) on an
empty or absent value; on a present non-empty value the coercer allocates a
fresh zero pointee, coerces the same raw values into it, attaches it only on
success, and propagates failure with the destination untouched.  The equation
also covers the pointer-to-custom-decodable path, which goes through the
`TextUnmarshaler` dispatch branch instead of the generic pointer branch. -/
theorem bind_ptr_optional (e : GoType) (values : List String) :
    ((values = [] ∨ values.head? = some "") → bind (.tyPtr e) values = .ok none)
    ∧ (∀ v vs, values = v :: vs → v ≠ "" →
        bind (.tyPtr e) values =
          match bind e values with
          | .ok w => .ok (some (.vPtr (w.getD (zeroValue e))))
          | .err m => .err m
          | .panic m => .panic m) := by
  constructor
  · intro hv
    have h2 : values = [] ∨ ∃ vs, values = "" :: vs := by
      rcases hv with h | h
      · exact .inl h
      · rcases values with _ | ⟨v, vs⟩
        · exact .inl rfl
        · simp only [List.head?_cons, Option.some.injEq] at h
          exact .inr ⟨vs, by rw [h]⟩
    rcases h2 with h | ⟨vs, h⟩ <;> subst h <;>
      cases e <;> simp [bind, implementsTextUnmarshaler]
  · intro v vs hvv hne
    subst hvv
    by_cases hhex : e = .tyHexInt64
    · subst hhex
      cases hh : hexInt64UnmarshalText v <;>
        simp [bind, implementsTextUnmarshaler, hne, hh]
    · cases e <;> simp_all [bind, hne]

/-- C6 witness: an empty value leaves the pointer nil; "5" allocates and
attaches the coerced pointee; a malformed value propagates the parse error. -/
theorem bind_ptr_optional_witness :
    bind (.tyPtr (.tyInt 64)) [] = .ok none
    ∧ bind (.tyPtr (.tyInt 64)) ["5"] = .ok (some (.vPtr (.vInt 64 5)))
    ∧ bind (.tyPtr (.tyInt 64)) ["x"] = .err "parsing x: invalid syntax" := by
  refine ⟨(bind_ptr_optional (.tyInt 64) []).1 (.inl rfl), ?_, ?_⟩
  · have h := (bind_ptr_optional (.tyInt 64) ["5"]).2 "5" [] rfl (by decide)
    rw [h]
    rfl
  · have h := (bind_ptr_optional (.tyInt 64) ["x"]).2 "x" [] rfl (by decide)
    rw [h]
    rfl

/-- Helper: the slice branch of `bind`, restated through `collectElems`. -/
theorem bind_slice_eq (e : GoType) (he : e ≠ .tyUInt 8) (values : List String) :
    bind (.tySlice e) values =
      match collectElems (zeroValue e) (values.map (fun v => bind e [v])) with
      | .oks l => .ok (some (.vSlice l))
      | .err m => .err m
      | .panic m => .panic m := by
  cases e with
  | tyUInt w =>
      rcases eq_or_ne w 8 with h8 | h8
      · subst h8
        exact absurd rfl he
      · simp [bind, h8]
  | tyString => rfl
  | tyInt w => rfl
  | tyBool => rfl
  | tyFloat w => rfl
  | tyHexInt64 => rfl
  | tyPtr t => rfl
  | tySlice t => rfl
  | tyStruct => rfl

/-- Helper: collecting element results aborts at the first error when every
earlier element succeeded. -/
theorem collectElems_append_err (z : GoValue) (rs1 rs2 : List BindRes) (m : String)
    (h : ∀ r ∈ rs1, ∃ w, r = .ok w) :
    collectElems z (rs1 ++ .err m :: rs2) = .err m := by
  induction rs1 with
  | nil => simp [collectElems]
  | cons r rs ih =>
      obtain ⟨w, hw⟩ := h r (by simp)
      subst hw
      have ih2 := ih (fun r hr => h r (by simp [hr]))
      simp [collectElems, ih2]

/-- C4: if coercing any element of a non-empty raw value list fails (all
earlier elements succeeding), the whole slice coercion returns that element's
error and never commits a partial sequence: at the stage level the field
retains exactly its prior value. -/
theorem bind_slice_error_atomic (e : GoType) (pre post : List String) (v : String)
    (m : String) (he : e ≠ .tyUInt 8)
    (hpre : ∀ u ∈ pre, ∃ w, bind e [u] = .ok w)
    (hv : bind e [v] = .err m) :
    bind (.tySlice e) (pre ++ v :: post) = .err m
    ∧ (∀ f : Field, f.type = .tySlice e → ¬ f.queryTag = "" →
        bindQuery ⟨"GET", [(f.queryTag, pre ++ v :: post)], [], true⟩ [f] =
          .err m [f]) := by
  have hmain : bind (.tySlice e) (pre ++ v :: post) = .err m := by
    rw [bind_slice_eq e he]
    rw [List.map_append, List.map_cons, hv]
    rw [collectElems_append_err (zeroValue e) _ _ m ?hh]
    case hh =>
      intro r hr
      simp only [List.mem_map] at hr
      obtain ⟨u, hu, hru⟩ := hr
      obtain ⟨w, hw⟩ := hpre u hu
      exact ⟨w, by rw [← hru, hw]⟩
  refine ⟨hmain, ?_⟩
  intro f hf hq
  unfold bindQuery bindFieldsWith
  rw [if_neg hq]
  have hl : multiLookup [(f.queryTag, pre ++ v :: post)] f.queryTag =
      pre ++ v :: post := by
    simp [multiLookup]
  simp only [hl, hf, hmain]

/-- C4 witness: a boolean-slice field over values ["true", "zz"] fails on the
second element and leaves the field at its prior nil value. -/
theorem bind_slice_error_atomic_witness :
    bind (.tySlice .tyBool) ["true", "zz"] = .err "parsing zz: invalid syntax"
    ∧ bindQuery ⟨"GET", [("flags", ["true", "zz"])], [], true⟩
        [⟨"flags", "", "", .tySlice .tyBool, .vNil⟩] =
      .err "parsing zz: invalid syntax" [⟨"flags", "", "", .tySlice .tyBool, .vNil⟩] := by
  have h := bind_slice_error_atomic .tyBool ["true"] [] "zz" "parsing zz: invalid syntax"
    (by decide) ?hp rfl
  case hp =>
    intro u hu
    simp only [List.mem_singleton] at hu
    subst hu
    exact ⟨some (.vBool true), rfl⟩
  exact ⟨h.1, h.2 ⟨"flags", "", "", .tySlice .tyBool, .vNil⟩ rfl (by decide)⟩

/-- Helper: decoders whose match predicate rejects the request are skipped. -/
theorem runBodyDecoders_skip (req : Request) (fs : List Field) :
    ∀ pre : List BodyDecoder, (∀ d ∈ pre, d.Match req = false) →
      ∀ rest, runBodyDecoders (pre ++ rest) req fs = runBodyDecoders rest req fs := by
  intro pre
  induction pre with
  | nil => intro _ rest; rfl
  | cons d ds ih =>
      intro h rest
      have hd : d.Match req = false := h d (by simp)
      rw [List.cons_append]
      show (if d.Match req then _ else runBodyDecoders (ds ++ rest) req fs) = _
      rw [hd]
      simp only [Bool.false_eq_true, if_false]
      exact ih (fun d2 hd2 => h d2 (by simp [hd2])) rest

/-- C7: the body-handling loop runs decoders in registration order; the first
decoder whose match predicate accepts the request decodes and iteration stops
— a successful decode breaks out, a decode failure is returned immediately
and no later decoder runs (the result is independent of the decoders after
the first match) — and if no decoder matches, body handling is a successful
no-op. -/
theorem runBodyDecoders_first_match (pre post : List BodyDecoder) (dec : BodyDecoder)
    (req : Request) (fs : List Field)
    (hpre : ∀ d ∈ pre, d.Match req = false) (hdec : dec.Match req = true) :
    (runBodyDecoders (pre ++ dec :: post) req fs =
      match dec.DecodeBody req fs with
      | .ok fs2 => .ok fs2
      | .error e => .err e fs)
    ∧ ∀ l : List BodyDecoder, (∀ d ∈ l, d.Match req = false) →
        runBodyDecoders l req fs = .ok fs := by
  constructor
  · rw [runBodyDecoders_skip req fs pre hpre (dec :: post)]
    show (if dec.Match req then _ else _) = _
    rw [hdec]
    simp only [if_true]
  · intro l hl
    have h := runBodyDecoders_skip req fs l hl []
    rw [List.append_nil] at h
    exact h

/-- C7 witness: three registered decoders — a non-matching one, a matching
one whose decode fails, and a matching one that would succeed; the loop skips
the first, fails with the second's error, and never reaches the third.  A
registry with only the non-matching decoder is a successful no-op. -/
theorem runBodyDecoders_first_match_witness :
    runBodyDecoders
        [⟨fun _ => false, fun _ fs => .ok fs⟩,
         ⟨fun _ => true, fun _ _ => .error "decode failed"⟩,
         ⟨fun _ => true, fun _ fs => .ok fs⟩]
        ⟨"POST", [], [], false⟩ [⟨"q", "", "", .tyString, .vString ""⟩] =
      .err "decode failed" [⟨"q", "", "", .tyString, .vString ""⟩]
    ∧ runBodyDecoders [⟨fun _ => false, fun _ fs => .ok fs⟩]
        ⟨"POST", [], [], false⟩ [⟨"q", "", "", .tyString, .vString ""⟩] =
      .ok [⟨"q", "", "", .tyString, .vString ""⟩] := by
  have h := runBodyDecoders_first_match
    [⟨fun _ => false, fun _ fs => .ok fs⟩]
    [⟨fun _ => true, fun _ fs => .ok fs⟩]
    ⟨fun _ => true, fun _ _ => .error "decode failed"⟩
    ⟨"POST", [], [], false⟩ [⟨"q", "", "", .tyString, .vString ""⟩]
    (by intro d hd; simp only [List.mem_singleton] at hd; subst hd; rfl) rfl
  constructor
  · exact h.1
  · exact h.2 [⟨fun _ => false, fun _ fs => .ok fs⟩]
      (by intro d hd; simp only [List.mem_singleton] at hd; subst hd; rfl)

/-- C8 counterexample: a HEAD request is retrieval-style, yet the code's
body-skip test is `req.Method != http.MethodGet`, so a HEAD request with a
matching content type IS body-decoded: with the JSON match predicate and a
decoder registered, the destination field ends up written by the body stage,
whereas with no decoder registered it stays untouched. -/
theorem bindRequest_head_body_decoded :
    Binder.BindRequest
        ⟨⟨none, none,
          [⟨jsonMatch, fun _ fs => .ok (fs.map (fun f => { f with value := .vString "decoded" }))⟩]⟩⟩
        ⟨"HEAD", [], [("Content-Type", ["application/json; charset=utf-8"])], false⟩
        [⟨"", "", "", .tyString, .vString ""⟩] =
      .ok [⟨"", "", "", .tyString, .vString "decoded"⟩]
    ∧ Binder.BindRequest ⟨⟨none, none, []⟩⟩
        ⟨"HEAD", [], [("Content-Type", ["application/json; charset=utf-8"])], false⟩
        [⟨"", "", "", .tyString, .vString ""⟩] =
      .ok [⟨"", "", "", .tyString, .vString ""⟩]
    ∧ (GoValue.vString "decoded" = GoValue.vString "" → False) := by
  refine ⟨rfl, rfl, ?_⟩
  intro h
  injection h with h2
  exact absurd h2 (by decide)

/-- C8 amended: only GET requests skip body decoding; for a GET request the
registered decoders are irrelevant to the outcome. -/
theorem bindRequest_get_skips_body (pe : Option (Request → String → String))
    (valf : Option (List Field → Option String)) (ds1 ds2 : List BodyDecoder)
    (req : Request) (fs : List Field) (hm : req.method = "GET") :
    Binder.BindRequest ⟨⟨pe, valf, ds1⟩⟩ req fs =
      Binder.BindRequest ⟨⟨pe, valf, ds2⟩⟩ req fs := by
  unfold Binder.BindRequest bindRequestCore
  simp [hm]

/-- C8 amended witness: a GET request with a matching content type produces
the same result whether a universally-matching decoder is registered or none
at all. -/
theorem bindRequest_get_skips_body_witness :
    Binder.BindRequest
        ⟨⟨none, none, [⟨fun _ => true, fun _ fs => .ok (fs.map (fun f => { f with value := .vString "decoded" }))⟩]⟩⟩
        ⟨"GET", [], [("Content-Type", ["application/json"])], false⟩
        [⟨"", "", "", .tyString, .vString ""⟩] =
      Binder.BindRequest ⟨⟨none, none, []⟩⟩
        ⟨"GET", [], [("Content-Type", ["application/json"])], false⟩
        [⟨"", "", "", .tyString, .vString ""⟩] :=
  bindRequest_get_skips_body none none
    [⟨fun _ => true, fun _ fs => .ok (fs.map (fun f => { f with value := .vString "decoded" }))⟩] []
    ⟨"GET", [], [("Content-Type", ["application/json"])], false⟩
    [⟨"", "", "", .tyString, .vString ""⟩] rfl

/-- C1 counterexample: the code runs query extraction BEFORE header
extraction, while the claim puts header extraction first.  On a destination
field tagged for both stages with colliding keys, the code's result keeps the
header value (written last), while the claimed order would keep the query
value, so the two pipelines disagree. -/
theorem bindRequest_order_counterexample :
    Binder.BindRequest ⟨⟨none, none, []⟩⟩
        ⟨"GET", [("x", ["qv"])], [("X", ["hv"])], true⟩
        [⟨"x", "X", "", .tyString, .vString ""⟩] =
      .ok [⟨"x", "X", "", .tyString, .vString "hv"⟩]
    ∧ bindRequestSpecOrder ⟨none, none, []⟩
        ⟨"GET", [("x", ["qv"])], [("X", ["hv"])], true⟩
        [⟨"x", "X", "", .tyString, .vString ""⟩] =
      .ok [⟨"x", "X", "", .tyString, .vString "qv"⟩]
    ∧ Binder.BindRequest ⟨⟨none, none, []⟩⟩
        ⟨"GET", [("x", ["qv"])], [("X", ["hv"])], true⟩
        [⟨"x", "X", "", .tyString, .vString ""⟩] ≠
      bindRequestSpecOrder ⟨none, none, []⟩
        ⟨"GET", [("x", ["qv"])], [("X", ["hv"])], true⟩
        [⟨"x", "X", "", .tyString, .vString ""⟩] := by
  refine ⟨rfl, rfl, ?_⟩
  intro h
  have h2 : Outcome.ok [(⟨"x", "X", "", .tyString, .vString "hv"⟩ : Field)] =
      .ok [⟨"x", "X", "", .tyString, .vString "qv"⟩] := h
  injection h2 with h3
  have h4 : (⟨"x", "X", "", .tyString, .vString "hv"⟩ : Field) =
      ⟨"x", "X", "", .tyString, .vString "qv"⟩ := List.head_eq_of_cons_eq h3
  have h5 : GoValue.vString "hv" = GoValue.vString "qv" := congrArg Field.value h4
  injection h5 with h6
  exact absurd h6 (by decide)

/-- C1 amended: the configurable binder executes body decode (for non-GET),
then QUERY extraction, then HEADER extraction, then route-parameter
extraction when configured, then validation when configured, stopping at the
first error; whenever the deferred body close does not panic (the request is
GET or carries a body stream), the destination contents and returned error
are exactly those of running that stage list in order. -/
theorem bindRequest_stage_order (opts : BindOptions) (req : Request) (fs : List Field)
    (h : ¬(req.method ≠ "GET" ∧ req.bodyIsNil)) :
    Binder.BindRequest ⟨opts⟩ req fs = runStages (stagesOf opts) req fs := by
  unfold Binder.BindRequest
  rw [if_neg h]
  rcases opts with ⟨pe, valf, ds⟩
  unfold bindRequestCore stagesOf
  cases pe with
  | none =>
      cases valf with
      | none =>
          simp only [List.append_nil, List.nil_append, runStages, bodyStage]
          cases hb : (if req.method ≠ "GET" then runBodyDecoders ds req fs else Outcome.ok fs) with
          | err e a => rfl
          | panic e a => rfl
          | ok fs1 =>
              simp only [runStages]
              cases hq : bindQuery req fs1 with
              | err e a => rfl
              | panic e a => rfl
              | ok fs2 =>
                  simp only [runStages]
                  cases hh : bindHeader req fs2 <;> rfl
      | some vf =>
          simp only [List.append_nil, List.nil_append, List.cons_append, runStages, bodyStage]
          cases hb : (if req.method ≠ "GET" then runBodyDecoders ds req fs else Outcome.ok fs) with
          | err e a => rfl
          | panic e a => rfl
          | ok fs1 =>
              simp only [runStages]
              cases hq : bindQuery req fs1 with
              | err e a => rfl
              | panic e a => rfl
              | ok fs2 =>
                  simp only [runStages]
                  cases hh : bindHeader req fs2 with
                  | err e a => rfl
                  | panic e a => rfl
                  | ok fs3 =>
                      simp only [runStages, validateStage]
                      cases hv : vf fs3 <;> rfl
  | some pex =>
      cases valf with
      | none =>
          simp only [List.append_nil, List.nil_append, List.cons_append, runStages, bodyStage]
          cases hb : (if req.method ≠ "GET" then runBodyDecoders ds req fs else Outcome.ok fs) with
          | err e a => rfl
          | panic e a => rfl
          | ok fs1 =>
              simp only [runStages]
              cases hq : bindQuery req fs1 with
              | err e a => rfl
              | panic e a => rfl
              | ok fs2 =>
                  simp only [runStages]
                  cases hh : bindHeader req fs2 with
                  | err e a => rfl
                  | panic e a => rfl
                  | ok fs3 =>
                      simp only [runStages]
                      cases hp : bindParam req pex fs3 <;> rfl
      | some vf =>
          simp only [List.append_nil, List.nil_append, List.cons_append, runStages, bodyStage]
          cases hb : (if req.method ≠ "GET" then runBodyDecoders ds req fs else Outcome.ok fs) with
          | err e a => rfl
          | panic e a => rfl
          | ok fs1 =>
              simp only [runStages]
              cases hq : bindQuery req fs1 with
              | err e a => rfl
              | panic e a => rfl
              | ok fs2 =>
                  simp only [runStages]
                  cases hh : bindHeader req fs2 with
                  | err e a => rfl
                  | panic e a => rfl
                  | ok fs3 =>
                      simp only [runStages]
                      cases hp : bindParam req pex fs3 with
                      | err e a => rfl
                      | panic e a => rfl
                      | ok fs4 =>
                          simp only [runStages, validateStage]
                          cases hv : vf fs4 <;> rfl

/-- C1 amended witness: on a concrete GET request the monolithic
`BindRequest` agrees with running the explicit body, query, header stage
list. -/
theorem bindRequest_stage_order_witness :
    Binder.BindRequest ⟨⟨none, none, []⟩⟩
        ⟨"GET", [("x", ["qv"])], [("X", ["hv"])], true⟩
        [⟨"x", "X", "", .tyString, .vString ""⟩] =
      runStages (stagesOf ⟨none, none, []⟩)
        ⟨"GET", [("x", ["qv"])], [("X", ["hv"])], true⟩
        [⟨"x", "X", "", .tyString, .vString ""⟩] :=
  bindRequest_stage_order ⟨none, none, []⟩
    ⟨"GET", [("x", ["qv"])], [("X", ["hv"])], true⟩
    [⟨"x", "X", "", .tyString, .vString ""⟩]
    (fun hc => hc.1 rfl)

end Httpbinder
